import Mathlib

/-!
Verification of the Data Analyst Agent backend (`backend/server.py`).

The development shallowly embeds the pieces of the FastAPI service that the
specification talks about: the Python string operations used to extract a
code block from the model response, the per-file ingestion loop, the
restricted execution namespace, and the control flow of the `analyze_data`
endpoint (its nested try blocks, the unconditional temp-dir cleanup and the
single success-path database insert).  External effects — CSV parsing, PDF
text extraction, the model call, `exec`, the database insert — are modelled
as oracle outcomes (`Except`) carried by the request environment, while every
piece of control flow and data plumbing of the handler itself is embedded
directly from the source.
-/

namespace DataAnalyst

/-- Python strings are modelled as lists of characters. -/
abbrev Str := List Char

/-- Python `s.endswith(suffix)`. -/
def pyEndsWith (suffix s : Str) : Bool :=
  suffix.isSuffixOf s

/-- Python `s.lower()` (ASCII lowering, as applied to filenames). -/
def pyLower (s : Str) : Str :=
  s.map Char.toLower

/-- Python `s.replace(old, new)` for single-character patterns. -/
def pyReplaceChar (old new : Char) (s : Str) : Str :=
  s.map fun c => if c = old then new else c

/-- Python `s.strip()`: remove leading and trailing whitespace. -/
def pyStrip (s : Str) : Str :=
  ((s.dropWhile Char.isWhitespace).reverse.dropWhile Char.isWhitespace).reverse

/-- Does `xs` start with `p`?  (Python slice comparison used by `in`/`split`.) -/
def strHasPre (p xs : Str) : Bool :=
  match p, xs with
  | [], _ => true
  | _ :: _, [] => false
  | a :: ps, b :: rest => if a = b then strHasPre ps rest else false

/-- Index of the first occurrence of `sep` in `xs`, scanning left to right. -/
def firstOcc (sep : Str) : Str → Option Nat
  | [] => none
  | c :: rest =>
    if strHasPre sep (c :: rest) then some 0
    else (firstOcc sep rest).map (· + 1)

/-- Python `sep in xs` (substring containment). -/
def pyIn (sep xs : Str) : Bool :=
  (firstOcc sep xs).isSome

/-- The text before the first occurrence of `sep` (all of `xs` if none). -/
def pyUpTo (sep xs : Str) : Str :=
  match firstOcc sep xs with
  | some i => xs.take i
  | none => xs

/-- The text after the first occurrence of `sep` (empty if none). -/
def pyAfter (sep xs : Str) : Str :=
  match firstOcc sep xs with
  | some i => xs.drop (i + sep.length)
  | none => []

/-- Fuelled worker for `pySplit`; `fuel ≥ xs.length` makes it total. -/
def pySplitGo (fuel : Nat) (sep : Str) (xs : Str) : List Str :=
  match fuel with
  | 0 => [xs]
  | fuel + 1 =>
    match xs with
    | [] => [[]]
    | c :: rest =>
      if strHasPre sep (c :: rest) && !sep.isEmpty then
        [] :: pySplitGo fuel sep (rest.drop (sep.length - 1))
      else
        match pySplitGo fuel sep rest with
        | [] => [[c]]
        | s :: ss => (c :: s) :: ss

/-- Python `xs.split(sep)` for a non-empty separator: cut at every
left-to-right non-overlapping occurrence of `sep`. -/
def pySplit (sep xs : Str) : List Str :=
  pySplitGo xs.length sep xs

/-- The fenced-code marker `\x60\x60\x60` (three backticks). -/
def fenceMarker : Str := "```".data

/-- The python-tagged fenced-code marker. -/
def pythonMarker : Str := "```python".data

/-- Code extraction from the raw model response, embedded from
`generate_analysis_code` (server.py lines 233-241): Python
`response.split("```python")[1].split("```")[0].strip()` when the python tag
occurs, else `response.split("```")[1].split("```")[0].strip()` when a fence
occurs, else `response.strip()`. -/
def extractCode (response : Str) : Str :=
  if pyIn pythonMarker response then
    pyStrip ((pySplit fenceMarker ((pySplit pythonMarker response).getD 1 [])).getD 0 [])
  else if pyIn fenceMarker response then
    pyStrip ((pySplit fenceMarker ((pySplit fenceMarker response).getD 1 [])).getD 0 [])
  else
    pyStrip response

/-- Modelled from the spec: the content of the language-tagged fenced block is
the text after the first python marker, up to the next fence. -/
def taggedBlockContent (r : Str) : Str :=
  pyUpTo fenceMarker (pyAfter pythonMarker r)

/-- Modelled from the spec: the content of the first fenced block is the text
after the first fence, up to the next fence. -/
def firstBlockContent (r : Str) : Str :=
  pyUpTo fenceMarker (pyAfter fenceMarker r)

/-- Modelled from the spec: the extraction policy exactly as the claim words
it — tagged block content if a python-tagged block is present, else the first
fenced block content, else the whole response as code. -/
def extractPolicySpec (r : Str) : Str :=
  if pyIn pythonMarker r then pyStrip (taggedBlockContent r)
  else if pyIn fenceMarker r then pyStrip (firstBlockContent r)
  else pyStrip r

/-- The tagged-block content as the code actually computes it: the text after
the first python marker is first truncated at the next python marker (an
artefact of Python `split` indexing) and only then truncated at the next
fence. -/
def taggedBlockContentClipped (r : Str) : Str :=
  pyUpTo fenceMarker (pyUpTo pythonMarker (pyAfter pythonMarker r))

/-- The amended extraction policy: as `extractPolicySpec`, except that the
tagged-block content is additionally clipped at any further python marker. -/
def extractPolicyAmended (r : Str) : Str :=
  if pyIn pythonMarker r then pyStrip (taggedBlockContentClipped r)
  else if pyIn fenceMarker r then pyStrip (firstBlockContent r)
  else pyStrip r

/-- A response on which the code diverges from the extraction policy as the
claim words it: the text after the first python tag is clipped at a second,
overlapping python tag before the closing fence is looked for. -/
def divergentResponse : Str := "```pythonA````pythonB```".data

/-- The shape and column names of a parsed tabular frame (the only parts of a
pandas DataFrame the server reads: `df.shape`, `df.columns.tolist()`). -/
structure DataFrame where
  rows : Nat
  cols : Nat
  columns : List Str
deriving DecidableEq

/-- The image metadata captured by `process_image_file`. -/
structure ImageInfo where
  format : Str
  width : Nat
  height : Nat
  mode : Str
deriving DecidableEq

/-- Values bound in the execution namespace. -/
inductive PyVal where
  | builtinsMap (names : List Str)
  | dataframe (d : DataFrame)
  | text (s : Str)
  | pathVal (s : Str)
  | libHandle (name : Str)
  | funcHandle (name : Str)
  | noneVal
  | pyObj (n : Nat)
deriving DecidableEq

/-- A Python dict with string keys, as an insertion-ordered association list
with unique keys maintained by `dictInsert`. -/
abbrev Dict := List (Str × PyVal)

/-- Python `d[k] = v`: overwrite in place if the key exists, else append. -/
def dictInsert (k : Str) (v : PyVal) (d : Dict) : Dict :=
  if d.any (fun p => p.1 = k) then
    d.map (fun p => if p.1 = k then (k, v) else p)
  else
    d ++ [(k, v)]

/-- Python `d.get(k)` / `k in d` lookup: first entry with the key. -/
def dictLookup (k : Str) : Dict → Option PyVal
  | [] => none
  | (k', v) :: rest => if k' = k then some v else dictLookup k rest

/-- Python `d.update(extra)`: insert every entry of `extra` in order. -/
def dictUpdate (d : Dict) (extra : Dict) : Dict :=
  extra.foldl (fun acc p => dictInsert p.1 p.2 acc) d

/-- Exceptions that flow through the handler: `HTTPException(status, detail)`
or a plain exception carrying a message. -/
inductive PyExc where
  | http (status : Nat) (detail : Str)
  | plain (msg : Str)
deriving DecidableEq

/-- Python `str(e)`: Starlette prints an HTTPException as
"{status_code}: {detail}". -/
def excMessage : PyExc → Str
  | .http s d => Nat.toDigits 10 s ++ ": ".data ++ d
  | .plain m => m

/-- The allow-listed builtins of the sandbox namespace
(server.py lines 155-173), in source order. -/
def safeBuiltins : List Str :=
  [ "print".data, "len".data, "str".data, "int".data, "float".data,
    "list".data, "dict".data, "tuple".data, "range".data, "enumerate".data,
    "zip".data, "min".data, "max".data, "sum".data, "abs".data,
    "round".data, "sorted".data ]

/-- The fixed entries of `safe_globals` (server.py lines 154-185): the
restricted builtins plus library handles and the two helper functions. -/
def baseGlobals : Dict :=
  [ ("__builtins__".data, .builtinsMap safeBuiltins),
    ("pd".data, .libHandle "pandas".data),
    ("np".data, .libHandle "numpy".data),
    ("plt".data, .libHandle "matplotlib.pyplot".data),
    ("go".data, .libHandle "plotly.graph_objects".data),
    ("px".data, .libHandle "plotly.express".data),
    ("requests".data, .libHandle "requests".data),
    ("BeautifulSoup".data, .libHandle "bs4".data),
    ("base64".data, .libHandle "base64".data),
    ("BytesIO".data, .libHandle "io".data),
    ("create_plot_base64".data, .funcHandle "create_plot_base64".data),
    ("scrape_wikipedia_table".data, .funcHandle "scrape_wikipedia_table".data) ]

/-- The globals dict passed to `exec`: `safe_globals` updated with the
per-request file context (server.py line 188). -/
def execNamespace (context : Dict) : Dict :=
  dictUpdate baseGlobals context

/-- The placeholder returned when the executed script binds no `result`. -/
def resultPlaceholder : Str :=
  "Code executed successfully but no result variable found".data

/-- `execute_analysis_code` (server.py lines 150-202).  The effect of
`exec` on the initially-empty `local_vars` dict is an oracle outcome: either
the final local scope or an exception message.  On success the designated
`result` variable is read from the local scope, with a fixed placeholder when
absent; any exception is re-raised as `HTTPException(500, "Code execution
error: ...")`. -/
def execute_analysis_code (code : Str) (context : Dict)
    (execOutcome : Except Str Dict) : Except PyExc PyVal :=
  let _globals := execNamespace context
  let _code := code
  match execOutcome with
  | .error e => .error (.http 500 ("Code execution error: ".data ++ e))
  | .ok localVars =>
    match dictLookup "result".data localVars with
    | some v => .ok v
    | none => .ok (.text resultPlaceholder)

/-- `generate_analysis_code` (server.py lines 204-245): the model call is an
oracle outcome; a successful response goes through `extractCode`, a failure
is re-raised as `HTTPException(500, "LLM code generation error: ...")`. -/
def generate_analysis_code (llmOutcome : Except Str Str) : Except PyExc Str :=
  match llmOutcome with
  | .error e => .error (.http 500 ("LLM code generation error: ".data ++ e))
  | .ok response => .ok (extractCode response)

/-- `process_csv_file` (server.py lines 82-88): a parse failure is raised as
`HTTPException(400, "Error processing CSV: ...")`. -/
def process_csv_file (parseOutcome : Except Str DataFrame) :
    Except PyExc DataFrame :=
  match parseOutcome with
  | .ok df => .ok df
  | .error e => .error (.http 400 ("Error processing CSV: ".data ++ e))

/-- `process_pdf_file` (server.py lines 90-101): on success the page texts
are accumulated by `text += page.extract_text() + "\n"`; any extraction
failure returns the empty string. -/
def process_pdf_file (extractOutcome : Except Str (List Str)) : Str :=
  match extractOutcome with
  | .ok pages => pages.foldl (fun text page => text ++ page ++ ['\n']) []
  | .error _ => []

/-- `process_image_file` (server.py lines 103-114): metadata on success, an
empty info map (here `none`) on any failure. -/
def process_image_file (openOutcome : Except Str ImageInfo) : Option ImageInfo :=
  openOutcome.toOption

/-- Python `filename.replace('.', '_').replace('-', '_')` (server.py lines
284, 295, 305, 318). -/
def sanitizeFilename (filename : Str) : Str :=
  pyReplaceChar '-' '_' (pyReplaceChar '.' '_' filename)

/-- Context variable name for a CSV upload: `df_<sanitized filename>`. -/
def dfVarName (filename : Str) : Str :=
  "df_".data ++ sanitizeFilename filename

/-- Context variable name for a PDF or text upload: `text_<sanitized>`. -/
def textVarName (filename : Str) : Str :=
  "text_".data ++ sanitizeFilename filename

/-- Context variable name for an image upload: `img_path_<sanitized>`. -/
def imgVarName (filename : Str) : Str :=
  "img_path_".data ++ sanitizeFilename filename

/-- A dataframe descriptor entry of `file_info["dataframes"]`. -/
structure DataFrameDescriptor where
  name : Str
  shape : Nat × Nat
  columns : List Str
  filename : Str
deriving DecidableEq

/-- A text descriptor entry of `file_info["text_content"]`. -/
structure TextDescriptor where
  name : Str
  filename : Str
  length : Nat
deriving DecidableEq

/-- An image descriptor entry of `file_info["images"]`. -/
structure ImageDescriptor where
  name : Str
  filename : Str
  info : Option ImageInfo
deriving DecidableEq

/-- The structured summary `file_info` built by the upload loop. -/
structure FileInfo where
  files : List Str
  dataframes : List DataFrameDescriptor
  text_content : List TextDescriptor
  images : List ImageDescriptor
deriving DecidableEq

def emptyFileInfo : FileInfo :=
  { files := [], dataframes := [], text_content := [], images := [] }

instance {α β : Type} [DecidableEq α] [DecidableEq β] :
    DecidableEq (Except α β) := fun x y =>
  match x, y with
  | .ok a, .ok b =>
    if h : a = b then .isTrue (by rw [h]) else
      .isFalse (fun hx => h (by injection hx))
  | .error a, .error b =>
    if h : a = b then .isTrue (by rw [h]) else
      .isFalse (fun hx => h (by injection hx))
  | .ok _, .error _ => .isFalse (fun hx => by injection hx)
  | .error _, .ok _ => .isFalse (fun hx => by injection hx)

/-- One uploaded auxiliary file: its name plus the oracle outcomes of the
filesystem and parser calls the loop may make on it. -/
structure UploadedFile where
  filename : Str
  save : Except Str Unit
  csvParse : Except Str DataFrame
  pdfExtract : Except Str (List Str)
  imageOpen : Except Str ImageInfo
  textRead : Except Str Str
deriving DecidableEq

/-- One iteration of the upload loop (server.py lines 274-328): save the
file, branch on the filename suffix, bind a context variable and append a
descriptor, and in every non-raising branch append the original filename to
`file_info["files"]`.  A CSV parse failure raises (propagating the
`HTTPException(400)`); an unreadable "other" file is skipped with only the
filename appended. -/
def processOneFile (tempDir : Str) (acc : Dict × FileInfo) (f : UploadedFile) :
    Except PyExc (Dict × FileInfo) :=
  let ctx := acc.1
  let info := acc.2
  match f.save with
  | .error e => .error (.plain e)
  | .ok _ =>
    if pyEndsWith ".csv".data f.filename then
      match process_csv_file f.csvParse with
      | .error exc => .error exc
      | .ok df =>
        let v := dfVarName f.filename
        .ok (dictInsert v (.dataframe df) ctx,
             { info with
               dataframes := info.dataframes ++
                 [{ name := v, shape := (df.rows, df.cols),
                    columns := df.columns, filename := f.filename }],
               files := info.files ++ [f.filename] })
    else if pyEndsWith ".pdf".data f.filename then
      let text := process_pdf_file f.pdfExtract
      let v := textVarName f.filename
      .ok (dictInsert v (.text text) ctx,
           { info with
             text_content := info.text_content ++
               [{ name := v, filename := f.filename, length := text.length }],
             files := info.files ++ [f.filename] })
    else if pyEndsWith ".png".data (pyLower f.filename) ||
            pyEndsWith ".jpg".data (pyLower f.filename) ||
            pyEndsWith ".jpeg".data (pyLower f.filename) then
      let imgInfo := process_image_file f.imageOpen
      let v := imgVarName f.filename
      .ok (dictInsert v (.pathVal (tempDir ++ ['/'] ++ f.filename)) ctx,
           { info with
             images := info.images ++
               [{ name := v, filename := f.filename, info := imgInfo }],
             files := info.files ++ [f.filename] })
    else
      match f.textRead with
      | .ok content =>
        let v := textVarName f.filename
        .ok (dictInsert v (.text content) ctx,
             { info with
               text_content := info.text_content ++
                 [{ name := v, filename := f.filename,
                    length := content.length }],
               files := info.files ++ [f.filename] })
      | .error _ =>
        .ok (ctx, { info with files := info.files ++ [f.filename] })

/-- The upload loop itself: iterate `processOneFile`, propagating the first
raised exception. -/
def processFilesGo (tempDir : Str) (acc : Dict × FileInfo) :
    List UploadedFile → Except PyExc (Dict × FileInfo)
  | [] => .ok acc
  | f :: rest =>
    match processOneFile tempDir acc f with
    | .error e => .error e
    | .ok acc' => processFilesGo tempDir acc' rest

def processFiles (tempDir : Str) (files : List UploadedFile) :
    Except PyExc (Dict × FileInfo) :=
  processFilesGo tempDir ([], emptyFileInfo) files

/-- The request environment: the inputs of one `analyze_data` call together
with the oracle outcomes of its external effects (UTF-8 decode of the
questions upload, the model call, `exec`, the database insert) and the two
event-loop clock readings (request entry, request end). -/
structure Env where
  task_id : Str
  tempDir : Str
  questionsDecode : Except Str Str
  files : List UploadedFile
  llm : Except Str Str
  execLocals : Except Str Dict
  insert : Except Str Unit
  t0 : Int
  t1 : Int
deriving DecidableEq

/-- The `AnalysisResult` response model (server.py lines 74-79). -/
structure AnalysisResult where
  task_id : Str
  result : Option PyVal
  execution_time : Int
  status : Str
  error : Option Str
deriving DecidableEq

/-- The persisted `AnalysisRequest` record (server.py lines 67-72), as
inserted into `db.analysis_requests`. -/
structure AnalysisRequest where
  task_id : Str
  question : Str
  files_processed : List Str
  status : Str
deriving DecidableEq

/-- Observable outcome of one request: the HTTP status and body returned to
the caller, the records appended to the request-log collection, and whether
the temporary directory was created and removed. -/
structure Outcome where
  httpStatus : Nat
  body : AnalysisResult
  logs : List AnalysisRequest
  tempCreated : Bool
  tempRemoved : Bool
deriving DecidableEq

/-- The outer `except Exception` handler (server.py lines 359-369): an HTTP
200 envelope with status "error", a null result, the exception message, and
the elapsed time; nothing is inserted into the log collection.  `temp` says
whether the temporary directory had been created (and, by the inner
`finally`, already removed) when the exception surfaced. -/
def errorOutcome (env : Env) (msg : Str) (temp : Bool) : Outcome :=
  { httpStatus := 200,
    body := { task_id := env.task_id, result := none,
              execution_time := env.t1 - env.t0,
              status := "error".data, error := some msg },
    logs := [],
    tempCreated := temp,
    tempRemoved := temp }

/-- The `analyze_data` endpoint (server.py lines 247-369): read and decode
the questions file, create the temp dir, run the upload loop, generate and
execute code, insert exactly one "completed" record, and return the success
envelope; the inner `finally` removes the temp dir on every path after its
creation, and the outer `except Exception` turns any raised exception —
including the `HTTPException`s raised by the helpers — into a 200 "error"
envelope without touching the log collection. -/
def analyze_data (env : Env) : Outcome :=
  match env.questionsDecode with
  | .error e => errorOutcome env (excMessage (.plain e)) false
  | .ok questions_text =>
    match processFiles env.tempDir env.files with
    | .error exc => errorOutcome env (excMessage exc) true
    | .ok (file_context, file_info) =>
      match generate_analysis_code env.llm with
      | .error exc => errorOutcome env (excMessage exc) true
      | .ok analysis_code =>
        match execute_analysis_code analysis_code file_context env.execLocals with
        | .error exc => errorOutcome env (excMessage exc) true
        | .ok resultVal =>
          match env.insert with
          | .error e => errorOutcome env (excMessage (.plain e)) true
          | .ok _ =>
            { httpStatus := 200,
              body := { task_id := env.task_id, result := some resultVal,
                        execution_time := env.t1 - env.t0,
                        status := "completed".data, error := none },
              logs := [{ task_id := env.task_id, question := questions_text,
                         files_processed := file_info.files,
                         status := "completed".data }],
              tempCreated := true,
              tempRemoved := true }

/-- C9 witness: a concrete request that creates its workspace. -/
def envC9 : Env :=
  { task_id := "t9".data, tempDir := "/tmp/w9".data,
    questionsDecode := .ok "q".data, files := [],
    llm := .ok "x = 1".data, execLocals := .ok [],
    insert := .ok (), t0 := 0, t1 := 3 }

/-- C10 witness: an unreadable binary upload still shows up in the files
list while leaving the context and descriptors untouched. -/
def binFile : UploadedFile :=
  { filename := "blob.bin".data, save := .ok (),
    csvParse := .error "not csv".data, pdfExtract := .error "not pdf".data,
    imageOpen := .error "not img".data,
    textRead := .error "invalid utf-8".data }

/-- The character substitution actually performed on filenames. -/
def substDotDash (c : Char) : Char :=
  if c = '.' then '_' else if c = '-' then '_' else c

/-- The namespace names reserved for library handles and helper functions. -/
def reservedNames : List Str :=
  [ "pd".data, "np".data, "plt".data, "go".data, "px".data,
    "requests".data, "BeautifulSoup".data, "base64".data, "BytesIO".data,
    "create_plot_base64".data, "scrape_wikipedia_table".data ]

/-- Context variable names begin with 'd' (`df_`), 't' (`text_`) or
'i' (`img_path_`). -/
def GoodKey (k : Str) : Prop :=
  k.head? = some 'd' ∨ k.head? = some 't' ∨ k.head? = some 'i'

/-- C4 witness: a request with no auxiliary uploads yields the empty
context, whose exec namespace still carries the fixed builtins. -/
def envC4 : Env :=
  { task_id := "t4".data, tempDir := "/tmp/w4".data,
    questionsDecode := .ok "q".data, files := [],
    llm := .ok "result = 1".data, execLocals := .ok [],
    insert := .ok (), t0 := 0, t1 := 1 }

def isErr {α β : Type} : Except α β → Bool
  | .error _ => true
  | .ok _ => false

/-- Does the request carry a CSV upload whose parse fails? -/
def hasMalformedCsv (env : Env) : Bool :=
  env.files.any (fun f => pyEndsWith ".csv".data f.filename && isErr f.csvParse)

def badCsvFile : UploadedFile :=
  { filename := "data.csv".data, save := .ok (),
    csvParse := .error "Error tokenizing data".data,
    pdfExtract := .error "".data, imageOpen := .error "".data,
    textRead := .error "".data }

def envC1 : Env :=
  { task_id := "t1".data, tempDir := "/tmp/w1".data,
    questionsDecode := .ok "q".data, files := [badCsvFile],
    llm := .error "never called".data, execLocals := .error "never run".data,
    insert := .ok (), t0 := 0, t1 := 2 }

def envC2 : Env :=
  { task_id := "t2".data, tempDir := "/tmp/w2".data,
    questionsDecode := .ok "q".data, files := [],
    llm := .ok "result = 1/0".data,
    execLocals := .error "division by zero".data,
    insert := .ok (), t0 := 0, t1 := 2 }

def envC2ok : Env :=
  { task_id := "t2b".data, tempDir := "/tmp/w2b".data,
    questionsDecode := .ok "q".data, files := [],
    llm := .ok "result = 4".data,
    execLocals := .ok [("result".data, .pyObj 4)],
    insert := .ok (), t0 := 0, t1 := 2 }

def envC3 : Env :=
  { task_id := "t3".data, tempDir := "/tmp/w3".data,
    questionsDecode := .ok "q".data, files := [],
    llm := .ok "print(1)".data, execLocals := .error "boom".data,
    insert := .ok (), t0 := 1, t1 := 5 }

theorem pySplitGo_fuel_eq (sep : Str) :
    ∀ f g xs, xs.length ≤ f → xs.length ≤ g →
      pySplitGo f sep xs = pySplitGo g sep xs := by
  intro f
  induction f with
  | zero =>
    intro g xs hf _
    have hxs : xs = [] := List.eq_nil_of_length_eq_zero (Nat.le_zero.mp hf)
    subst hxs
    cases g <;> rfl
  | succ f ih =>
    intro g xs hf hg
    cases xs with
    | nil => cases g <;> rfl
    | cons c rest =>
      cases g with
      | zero => simp at hg
      | succ g =>
        simp only [pySplitGo]
        have hrest_f : rest.length ≤ f := by
          simp only [List.length_cons] at hf; omega
        have hrest_g : rest.length ≤ g := by
          simp only [List.length_cons] at hg; omega
        by_cases hb : (strHasPre sep (c :: rest) && !sep.isEmpty) = true
        · simp only [hb, if_true]
          have hdl : (rest.drop (sep.length - 1)).length ≤ rest.length := by
            simp [List.length_drop]
          rw [ih g (rest.drop (sep.length - 1)) (le_trans hdl hrest_f)
                (le_trans hdl hrest_g)]
        · simp only [hb, if_false]
          rw [ih g rest hrest_f hrest_g]
          simp

theorem pySplitGo_ne_nil (fuel : Nat) (sep xs : Str) :
    pySplitGo fuel sep xs ≠ [] := by
  induction fuel generalizing xs with
  | zero => simp [pySplitGo]
  | succ fuel ih =>
    cases xs with
    | nil => simp [pySplitGo]
    | cons c rest =>
      simp only [pySplitGo]
      by_cases hb : (strHasPre sep (c :: rest) && !sep.isEmpty) = true
      · simp [hb]
      · simp only [hb, if_false]
        cases hrec : pySplitGo fuel sep rest <;> simp

theorem strHasPre_take (p : Str) :
    ∀ (n : Nat) (xs : Str), strHasPre p (xs.take n) = true →
      strHasPre p xs = true := by
  induction p with
  | nil => intro n xs _; rfl
  | cons a ps ih =>
    intro n xs h
    cases n with
    | zero => simp [strHasPre] at h
    | succ n =>
      cases xs with
      | nil => simp [strHasPre] at h
      | cons b rest =>
        simp only [List.take, strHasPre] at h ⊢
        by_cases hab : a = b
        · simp only [hab, if_true] at h ⊢
          exact ih n rest h
        · simp [hab] at h

theorem pyIn_pyUpTo (sep : Str) : ∀ xs, pyIn sep (pyUpTo sep xs) = false := by
  intro xs
  induction xs with
  | nil =>
    simp [pyUpTo, firstOcc, pyIn]
  | cons c rest ih =>
    by_cases hpre : strHasPre sep (c :: rest) = true
    · simp [pyUpTo, firstOcc, hpre, pyIn]
    · simp only [Bool.not_eq_true] at hpre
      cases hocc : firstOcc sep rest with
      | none =>
        have : firstOcc sep (c :: rest) = none := by
          simp [firstOcc, hpre, hocc]
        simp [pyUpTo, this, pyIn, firstOcc, hpre, hocc]
      | some i =>
        have hup : pyUpTo sep (c :: rest) = c :: pyUpTo sep rest := by
          simp [pyUpTo, firstOcc, hpre, hocc, List.take]
        rw [hup]
        have hupre : strHasPre sep (c :: pyUpTo sep rest) = false := by
          by_contra hx
          simp only [Bool.not_eq_false] at hx
          have hc : c :: pyUpTo sep rest = (c :: rest).take (i + 1) := by
            simp [pyUpTo, hocc, List.take]
          rw [hc] at hx
          have := strHasPre_take sep (i + 1) (c :: rest) hx
          rw [this] at hpre
          exact absurd hpre (by simp)
        have hinner : firstOcc sep (pyUpTo sep rest) = none := by
          have := ih
          simp only [pyIn, Option.isSome] at this
          cases hocc2 : firstOcc sep (pyUpTo sep rest) with
          | none => rfl
          | some j => rw [hocc2] at this; simp at this
        simp [pyIn, firstOcc, hupre, hinner]

theorem pyUpTo_eq_self (sep xs : Str) (h : pyIn sep xs = false) :
    pyUpTo sep xs = xs := by
  simp only [pyIn, Option.isSome] at h
  cases hocc : firstOcc sep xs with
  | none => simp [pyUpTo, hocc]
  | some i => rw [hocc] at h; simp at h

theorem pySplitGo_getD_zero (sep : Str) (hs : sep ≠ []) :
    ∀ (fuel : Nat) (xs : Str), xs.length ≤ fuel →
      (pySplitGo fuel sep xs).getD 0 [] = pyUpTo sep xs := by
  intro fuel
  induction fuel with
  | zero =>
    intro xs hf
    have hxs : xs = [] := List.eq_nil_of_length_eq_zero (Nat.le_zero.mp hf)
    subst hxs
    simp [pySplitGo, pyUpTo, firstOcc]
  | succ fuel ih =>
    intro xs hf
    cases xs with
    | nil => simp [pySplitGo, pyUpTo, firstOcc]
    | cons c rest =>
      have hrest : rest.length ≤ fuel := by
        simp only [List.length_cons] at hf; omega
      have hne : (!sep.isEmpty) = true := by
        cases sep with
        | nil => exact absurd rfl hs
        | cons a ps => rfl
      simp only [pySplitGo]
      by_cases hpre : strHasPre sep (c :: rest) = true
      · simp [hpre, hne, pyUpTo, firstOcc]
      · simp only [Bool.not_eq_true] at hpre
        simp only [hpre, hne, Bool.false_and, if_false]
        cases hrec : pySplitGo fuel sep rest with
        | nil => exact absurd hrec (pySplitGo_ne_nil fuel sep rest)
        | cons s ss =>
          have hhead : s = pyUpTo sep rest := by
            have := ih rest hrest
            rw [hrec] at this
            simpa using this
          cases hocc : firstOcc sep rest with
          | none =>
            have hupto : pyUpTo sep rest = rest := by simp [pyUpTo, hocc]
            simp [pyUpTo, firstOcc, hpre, hocc, hhead, hupto]
          | some i =>
            simp [pyUpTo, firstOcc, hpre, hocc, hhead, List.take]

theorem pySplitGo_eq_cons (sep : Str) (hs : sep ≠ []) :
    ∀ (fuel : Nat) (xs : Str), xs.length ≤ fuel → pyIn sep xs = true →
      pySplitGo fuel sep xs =
        pyUpTo sep xs :: pySplit sep (pyAfter sep xs) := by
  intro fuel
  induction fuel with
  | zero =>
    intro xs hf hin
    have hxs : xs = [] := List.eq_nil_of_length_eq_zero (Nat.le_zero.mp hf)
    subst hxs
    simp [pyIn, firstOcc] at hin
  | succ fuel ih =>
    intro xs hf hin
    cases xs with
    | nil => simp [pyIn, firstOcc] at hin
    | cons c rest =>
      have hrest : rest.length ≤ fuel := by
        simp only [List.length_cons] at hf; omega
      have hne : (!sep.isEmpty) = true := by
        cases sep with
        | nil => exact absurd rfl hs
        | cons a ps => rfl
      simp only [pySplitGo]
      by_cases hpre : strHasPre sep (c :: rest) = true
      · simp only [hpre, hne, Bool.true_and, if_true]
        have hupto : pyUpTo sep (c :: rest) = [] := by
          simp [pyUpTo, firstOcc, hpre]
        have hafter : pyAfter sep (c :: rest) = rest.drop (sep.length - 1) := by
          cases sep with
          | nil => exact absurd rfl hs
          | cons a ps =>
            simp [pyAfter, firstOcc, hpre, List.drop]
        rw [hupto, hafter]
        have hdl : (rest.drop (sep.length - 1)).length ≤ fuel :=
          le_trans (by simp [List.length_drop]) hrest
        rw [pySplitGo_fuel_eq sep fuel (rest.drop (sep.length - 1)).length
              (rest.drop (sep.length - 1)) hdl le_rfl]
        rfl
      · simp only [Bool.not_eq_true] at hpre
        simp only [hpre, hne, Bool.false_and, if_false]
        cases hocc : firstOcc sep rest with
        | none =>
          exfalso
          simp [pyIn, firstOcc, hpre, hocc] at hin
        | some i =>
          have hinrest : pyIn sep rest = true := by simp [pyIn, hocc]
          rw [ih rest hrest hinrest]
          have hupto : pyUpTo sep (c :: rest) = c :: pyUpTo sep rest := by
            simp [pyUpTo, firstOcc, hpre, hocc, List.take]
          have hafter : pyAfter sep (c :: rest) = pyAfter sep rest := by
            simp only [pyAfter, firstOcc, hpre, Bool.false_eq_true, if_false,
              hocc, Option.map]
            rw [show i + 1 + sep.length = (i + sep.length) + 1 by omega]
            rw [List.drop_succ_cons]
          simp [hupto, hafter]

theorem pySplitGo_no_occ (sep : Str) :
    ∀ (fuel : Nat) (xs : Str), xs.length ≤ fuel → pyIn sep xs = false →
      pySplitGo fuel sep xs = [xs] := by
  intro fuel
  induction fuel with
  | zero =>
    intro xs hf _
    have hxs : xs = [] := List.eq_nil_of_length_eq_zero (Nat.le_zero.mp hf)
    subst hxs
    rfl
  | succ fuel ih =>
    intro xs hf hin
    cases xs with
    | nil => rfl
    | cons c rest =>
      have hrest : rest.length ≤ fuel := by
        simp only [List.length_cons] at hf; omega
      have hpre : strHasPre sep (c :: rest) = false := by
        by_contra hx
        simp only [Bool.not_eq_false] at hx
        simp [pyIn, firstOcc, hx] at hin
      have hocc : firstOcc sep rest = none := by
        cases hocc : firstOcc sep rest with
        | none => rfl
        | some i => simp [pyIn, firstOcc, hpre, hocc] at hin
      have hinrest : pyIn sep rest = false := by simp [pyIn, hocc]
      simp only [pySplitGo, hpre, Bool.false_and, Bool.false_eq_true, if_false]
      rw [ih rest hrest hinrest]

/-- Head of a Python split: the text before the first separator occurrence. -/
theorem pySplit_getD_zero (sep xs : Str) (hs : sep ≠ []) :
    (pySplit sep xs).getD 0 [] = pyUpTo sep xs :=
  pySplitGo_getD_zero sep hs xs.length xs le_rfl

/-- A Python split whose separator occurs decomposes as the text before the
first occurrence followed by the split of the text after it. -/
theorem pySplit_eq_cons (sep xs : Str) (hs : sep ≠ []) (hin : pyIn sep xs = true) :
    pySplit sep xs = pyUpTo sep xs :: pySplit sep (pyAfter sep xs) :=
  pySplitGo_eq_cons sep hs xs.length xs le_rfl hin

/-- Element 1 of a Python split whose separator occurs: the text strictly
between the first occurrence and the following one. -/
theorem pySplit_getD_one (sep xs : Str) (hs : sep ≠ []) (hin : pyIn sep xs = true) :
    (pySplit sep xs).getD 1 [] = pyUpTo sep (pyAfter sep xs) := by
  rw [pySplit_eq_cons sep xs hs hin]
  show (pySplit sep (pyAfter sep xs)).getD 0 [] = _
  exact pySplit_getD_zero sep (pyAfter sep xs) hs

theorem fenceMarker_ne_nil : fenceMarker ≠ [] := by decide

theorem pythonMarker_ne_nil : pythonMarker ≠ [] := by decide

/-- C6 (amended): code extraction returns the python-tagged block content
(clipped at any further python marker) when a python tag is present, else the
first fenced block content, else the stripped whole response. -/
theorem claim_C6_extraction_policy (r : Str) :
    extractCode r = extractPolicyAmended r := by
  unfold extractCode extractPolicyAmended
  by_cases h1 : pyIn pythonMarker r = true
  · simp only [h1, if_true]
    rw [pySplit_getD_one pythonMarker r pythonMarker_ne_nil h1]
    rw [pySplit_getD_zero fenceMarker _ fenceMarker_ne_nil]
    rfl
  · simp only [Bool.not_eq_true] at h1
    simp only [h1, Bool.false_eq_true, if_false]
    by_cases h2 : pyIn fenceMarker r = true
    · simp only [h2, if_true]
      rw [pySplit_getD_one fenceMarker r fenceMarker_ne_nil h2]
      rw [pySplit_getD_zero fenceMarker _ fenceMarker_ne_nil]
      rw [pyUpTo_eq_self fenceMarker _ (pyIn_pyUpTo fenceMarker _)]
      rfl
    · simp only [Bool.not_eq_true] at h2
      simp only [h2, Bool.false_eq_true, if_false]

/-- C6 counterexample: the extraction is not literally "the content of the
language-tagged fenced block" — on `divergentResponse` the code yields "A`"
while the tagged block content up to the next fence is "A". -/
theorem claim_C6_counterexample :
    extractCode divergentResponse ≠ extractPolicySpec divergentResponse := by
  decide

/-- C9: the temporary per-request workspace is removed on every path after
its creation — success, upload-loop exception, generation failure, execution
failure or logging failure — because cleanup sits in the inner `finally`. -/
theorem claim_C9_temp_cleanup (env : Env) :
    (analyze_data env).tempCreated = true →
      (analyze_data env).tempRemoved = true := by
  unfold analyze_data
  repeat' split
  all_goals exact fun h => h

/-- C9 witness: a concrete request whose workspace is created and removed. -/
theorem claim_C9_witness :
    (analyze_data envC9).tempCreated = true ∧
      (analyze_data envC9).tempRemoved = true :=
  ⟨by decide, claim_C9_temp_cleanup envC9 (by decide)⟩

/-- C5: after execution, the sandbox returns the `result` binding of the
script's local scope when present, and the fixed placeholder text when it is
absent, instead of failing. -/
theorem claim_C5_result_variable (code : Str) (context : Dict)
    (localVars : Dict) :
    (∀ v, dictLookup "result".data localVars = some v →
        execute_analysis_code code context (.ok localVars) = .ok v) ∧
    (dictLookup "result".data localVars = none →
        execute_analysis_code code context (.ok localVars) =
          .ok (.text resultPlaceholder)) := by
  constructor
  · intro v hv
    simp [execute_analysis_code, hv]
  · intro hv
    simp [execute_analysis_code, hv]

/-- C5 witness: a scope binding `result`, and a scope without it. -/
theorem claim_C5_witness :
    execute_analysis_code [] [] (.ok [("result".data, .pyObj 7)]) =
        .ok (.pyObj 7) ∧
      execute_analysis_code [] [] (.ok [("other".data, .pyObj 1)]) =
        .ok (.text resultPlaceholder) :=
  ⟨(claim_C5_result_variable [] [] [("result".data, .pyObj 7)]).1
      (.pyObj 7) (by decide),
   (claim_C5_result_variable [] [] [("other".data, .pyObj 1)]).2 (by decide)⟩

/-- C10: a file of unrecognised type whose text read fails is skipped — no
context binding, no descriptor — yet its original filename is still appended
to the files list, because the append sits after the whole branch chain. -/
theorem claim_C10_skipped_file_listed (tempDir : Str) (ctx : Dict)
    (info : FileInfo) (f : UploadedFile) (e : Str)
    (hsave : f.save = .ok ())
    (hcsv : pyEndsWith ".csv".data f.filename = false)
    (hpdf : pyEndsWith ".pdf".data f.filename = false)
    (himg : (pyEndsWith ".png".data (pyLower f.filename) ||
             pyEndsWith ".jpg".data (pyLower f.filename) ||
             pyEndsWith ".jpeg".data (pyLower f.filename)) = false)
    (hread : f.textRead = .error e) :
    processOneFile tempDir (ctx, info) f =
      .ok (ctx, { info with files := info.files ++ [f.filename] }) := by
  simp [processOneFile, hsave, hcsv, hpdf, himg, hread]

/-- C10 witness: the unreadable binary upload is listed yet skipped. -/
theorem claim_C10_witness :
    processOneFile "/tmp/w".data ([], emptyFileInfo) binFile =
      .ok ([], { emptyFileInfo with files := ["blob.bin".data] }) :=
  claim_C10_skipped_file_listed "/tmp/w".data [] emptyFileInfo binFile
    "invalid utf-8".data (by decide) (by decide) (by decide) (by decide)
    (by decide)

theorem foldl_append_newline (pages : List Str) :
    ∀ acc : Str,
      pages.foldl (fun text page => text ++ page ++ ['\n']) acc =
        acc ++ (pages.map (fun p => p ++ ['\n'])).flatten := by
  induction pages with
  | nil => intro acc; simp
  | cons p ps ih =>
    intro acc
    simp only [List.foldl, List.map, List.flatten]
    rw [ih (acc ++ p ++ ['\n'])]
    simp

/-- C7 counterexample: the PDF text is not the pages joined with a newline
separator — a single page "x" yields "x\n", not "x". -/
theorem claim_C7_counterexample :
    process_pdf_file (.ok ["x".data]) ≠
      List.intercalate ['\n'] ["x".data] := by
  decide

/-- C7 (amended): PDF ingestion returns every page's text followed by a
newline (newline-terminated concatenation), and any extraction failure
yields the empty string rather than aborting. -/
theorem claim_C7_pdf_text (outcome : Except Str (List Str)) :
    (∀ pages, outcome = .ok pages →
        process_pdf_file outcome =
          (pages.map (fun p => p ++ ['\n'])).flatten) ∧
    (∀ e, outcome = .error e → process_pdf_file outcome = []) := by
  constructor
  · intro pages hp
    subst hp
    show List.foldl _ [] pages = _
    rw [foldl_append_newline pages []]
    simp
  · intro e he
    subst he
    rfl

/-- C7 witness: a two-page success and a failed extraction. -/
theorem claim_C7_witness :
    process_pdf_file (.ok ["ab".data, "c".data]) =
        ("ab".data ++ ['\n']) ++ ("c".data ++ ['\n']) ∧
      process_pdf_file (.error "broken xref".data) = [] := by
  constructor
  · rw [(claim_C7_pdf_text (.ok ["ab".data, "c".data])).1
        ["ab".data, "c".data] rfl]
    decide
  · exact (claim_C7_pdf_text (.error "broken xref".data)).2
      "broken xref".data rfl

/-- C8 counterexample: only '.' and '-' are replaced in the filename, so a
derived name can keep other non-alphanumeric characters — here the '!' and
the space of "a! b.csv" survive into the variable name. -/
theorem claim_C8_counterexample :
    ¬ (∀ c ∈ dfVarName "a! b.csv".data, c.isAlphanum = true ∨ c = '_') := by
  decide

theorem reservedNames_heads : ∀ x ∈ reservedNames,
    x.head? ≠ some 'd' ∧ x.head? ≠ some 't' ∧ x.head? ≠ some 'i' := by
  decide

/-- C8 (amended): every context variable name is derived deterministically
from the filename by replacing '.' and '-' (and only those characters) with
underscores and adding a type prefix, and no derived name ever collides with
a reserved library-handle or helper name, which are exactly the non-builtins
keys of the fixed namespace. -/
theorem claim_C8_varname_derivation (filename : Str) :
    sanitizeFilename filename = filename.map substDotDash ∧
    baseGlobals.map Prod.fst = "__builtins__".data :: reservedNames ∧
    dfVarName filename ∉ reservedNames ∧
    textVarName filename ∉ reservedNames ∧
    imgVarName filename ∉ reservedNames := by
  refine ⟨?_, by decide, ?_, ?_, ?_⟩
  · simp only [sanitizeFilename, pyReplaceChar, List.map_map]
    have hfun : ((fun c => if c = '-' then '_' else c) ∘
        fun c => if c = '.' then '_' else c) = substDotDash := by
      funext c
      by_cases h1 : c = '.'
      · simp [h1, substDotDash]
      · by_cases h2 : c = '-' <;> simp [h1, h2, substDotDash]
    rw [hfun]
  · exact fun h => (reservedNames_heads _ h).1 rfl
  · exact fun h => (reservedNames_heads _ h).2.1 rfl
  · exact fun h => (reservedNames_heads _ h).2.2 rfl

theorem dictLookup_map_overwrite (k kp : Str) (v : PyVal) (hne : kp ≠ k) :
    ∀ d : Dict,
      dictLookup k (d.map (fun p => if p.1 = kp then (kp, v) else p)) =
        dictLookup k d := by
  intro d
  induction d with
  | nil => rfl
  | cons p rest ih =>
    cases p with
    | mk pk pv =>
      simp only [List.map]
      by_cases hp : pk = kp
      · rw [if_pos (show (pk, pv).1 = kp from hp)]
        simp only [dictLookup]
        rw [if_neg hne, if_neg (show ¬ pk = k from hp ▸ hne)]
        exact ih
      · rw [if_neg (show ¬ (pk, pv).1 = kp from hp)]
        simp only [dictLookup]
        by_cases hpk : pk = k
        · rw [if_pos hpk, if_pos hpk]
        · rw [if_neg hpk, if_neg hpk]
          exact ih

theorem dictLookup_append_one (k kp : Str) (v : PyVal) (hne : kp ≠ k) :
    ∀ d : Dict, dictLookup k (d ++ [(kp, v)]) = dictLookup k d := by
  intro d
  induction d with
  | nil =>
    show dictLookup k [(kp, v)] = dictLookup k []
    simp only [dictLookup]
    rw [if_neg hne]
  | cons p rest ih =>
    cases p with
    | mk pk pv =>
      simp only [List.cons_append, dictLookup]
      by_cases hpk : pk = k
      · rw [if_pos hpk, if_pos hpk]
      · rw [if_neg hpk, if_neg hpk]
        exact ih

theorem dictLookup_dictInsert_ne (k kp : Str) (v : PyVal) (d : Dict)
    (hne : kp ≠ k) :
    dictLookup k (dictInsert kp v d) = dictLookup k d := by
  unfold dictInsert
  by_cases hany : d.any (fun p => p.1 = kp) = true
  · simp only [hany, if_true]
    exact dictLookup_map_overwrite k kp v hne d
  · simp only [hany, if_false]
    exact dictLookup_append_one k kp v hne d

theorem dictLookup_dictUpdate (d : Dict) (extra : Dict) (k : Str)
    (h : ∀ p ∈ extra, p.1 ≠ k) :
    dictLookup k (dictUpdate d extra) = dictLookup k d := by
  induction extra generalizing d with
  | nil => rfl
  | cons p rest ih =>
    show dictLookup k (dictUpdate (dictInsert p.1 p.2 d) rest) = _
    rw [ih (dictInsert p.1 p.2 d) (fun q hq => h q (List.mem_cons_of_mem p hq))]
    exact dictLookup_dictInsert_ne k p.1 p.2 d (h p (List.mem_cons_self p rest))

theorem dictInsert_keys (k : Str) (v : PyVal) (d : Dict) :
    ∀ p ∈ dictInsert k v d, p.1 = k ∨ ∃ q ∈ d, p.1 = q.1 := by
  intro p hp
  unfold dictInsert at hp
  by_cases hany : d.any (fun q => q.1 = k) = true
  · rw [if_pos hany] at hp
    obtain ⟨q, hq, hfq⟩ := List.mem_map.mp hp
    by_cases hqk : q.1 = k
    · left
      rw [if_pos hqk] at hfq
      rw [← hfq]
    · right
      rw [if_neg hqk] at hfq
      exact ⟨q, hq, by rw [← hfq]⟩
  · rw [if_neg hany] at hp
    rcases List.mem_append.mp hp with hin | hone
    · exact Or.inr ⟨p, hin, rfl⟩
    · left
      rcases List.mem_singleton.mp hone with rfl
      rfl

theorem goodKey_dfVarName (filename : Str) : GoodKey (dfVarName filename) :=
  Or.inl rfl

theorem goodKey_textVarName (filename : Str) : GoodKey (textVarName filename) :=
  Or.inr (Or.inl rfl)

theorem goodKey_imgVarName (filename : Str) : GoodKey (imgVarName filename) :=
  Or.inr (Or.inr rfl)

theorem dictInsert_good (k : Str) (v : PyVal) (d : Dict)
    (hk : GoodKey k) (hd : ∀ p ∈ d, GoodKey p.1) :
    ∀ p ∈ dictInsert k v d, GoodKey p.1 := by
  intro p hp
  rcases dictInsert_keys k v d p hp with h | ⟨q, hq, hpq⟩
  · rw [h]; exact hk
  · rw [hpq]; exact hd q hq

theorem processOneFile_keys (tempDir : Str) (ctx : Dict) (info : FileInfo)
    (f : UploadedFile) (ctx' : Dict) (info' : FileInfo)
    (h : processOneFile tempDir (ctx, info) f = .ok (ctx', info'))
    (hctx : ∀ p ∈ ctx, GoodKey p.1) :
    ∀ p ∈ ctx', GoodKey p.1 := by
  unfold processOneFile at h
  cases hsave : f.save with
  | error e => rw [hsave] at h; exact absurd h (by simp)
  | ok u =>
    rw [hsave] at h
    simp only at h
    split at h
    · cases hcsv : process_csv_file f.csvParse with
      | error exc => rw [hcsv] at h; exact absurd h (by simp)
      | ok df =>
        rw [hcsv] at h
        simp only [Except.ok.injEq, Prod.mk.injEq] at h
        obtain ⟨hc, _⟩ := h
        rw [← hc]
        exact dictInsert_good _ _ _ (goodKey_dfVarName f.filename) hctx
    · split at h
      · simp only [Except.ok.injEq, Prod.mk.injEq] at h
        obtain ⟨hc, _⟩ := h
        rw [← hc]
        exact dictInsert_good _ _ _ (goodKey_textVarName f.filename) hctx
      · split at h
        · simp only [Except.ok.injEq, Prod.mk.injEq] at h
          obtain ⟨hc, _⟩ := h
          rw [← hc]
          exact dictInsert_good _ _ _ (goodKey_imgVarName f.filename) hctx
        · cases hread : f.textRead with
          | ok content =>
            rw [hread] at h
            simp only [Except.ok.injEq, Prod.mk.injEq] at h
            obtain ⟨hc, _⟩ := h
            rw [← hc]
            exact dictInsert_good _ _ _ (goodKey_textVarName f.filename) hctx
          | error e =>
            rw [hread] at h
            simp only [Except.ok.injEq, Prod.mk.injEq] at h
            obtain ⟨hc, _⟩ := h
            rw [← hc]
            exact hctx

theorem processFilesGo_keys (tempDir : Str) :
    ∀ (files : List UploadedFile) (ctx : Dict) (info : FileInfo)
      (ctx' : Dict) (info' : FileInfo),
      processFilesGo tempDir (ctx, info) files = .ok (ctx', info') →
      (∀ p ∈ ctx, GoodKey p.1) → ∀ p ∈ ctx', GoodKey p.1 := by
  intro files
  induction files with
  | nil =>
    intro ctx info ctx' info' h hctx
    simp only [processFilesGo, Except.ok.injEq, Prod.mk.injEq] at h
    obtain ⟨hc, _⟩ := h
    rw [← hc]
    exact hctx
  | cons f rest ih =>
    intro ctx info ctx' info' h hctx
    simp only [processFilesGo] at h
    cases hf : processOneFile tempDir (ctx, info) f with
    | error e => rw [hf] at h; exact absurd h (by simp)
    | ok acc' =>
      rw [hf] at h
      exact ih acc'.1 acc'.2 ctx' info' h
        (processOneFile_keys tempDir ctx info f acc'.1 acc'.2
          (by rw [← hf]) hctx)

theorem goodKey_ne_builtins (k : Str) (h : GoodKey k) :
    k ≠ "__builtins__".data := by
  intro he
  subst he
  rcases h with h | h | h <;> exact absurd h (by decide)

/-- C4: for every executed code string, the builtins mapping of the exec
namespace — `safe_globals` updated with any file context the upload loop can
produce — is exactly the fixed 17-name allow-list, which exposes no
file-opening, network, import, or process-spawning builtin. -/
theorem claim_C4_sandbox_builtins (env : Env) (ctx : Dict) (info : FileInfo)
    (h : processFiles env.tempDir env.files = .ok (ctx, info)) :
    dictLookup "__builtins__".data (execNamespace ctx) =
        some (.builtinsMap safeBuiltins) ∧
      safeBuiltins =
        [ "print".data, "len".data, "str".data, "int".data, "float".data,
          "list".data, "dict".data, "tuple".data, "range".data,
          "enumerate".data, "zip".data, "min".data, "max".data, "sum".data,
          "abs".data, "round".data, "sorted".data ] ∧
      "open".data ∉ safeBuiltins ∧
      "__import__".data ∉ safeBuiltins ∧
      "eval".data ∉ safeBuiltins ∧
      "compile".data ∉ safeBuiltins ∧
      "input".data ∉ safeBuiltins ∧
      "socket".data ∉ safeBuiltins ∧
      "system".data ∉ safeBuiltins := by
  have hkeys : ∀ p ∈ ctx, GoodKey p.1 :=
    processFilesGo_keys env.tempDir env.files [] emptyFileInfo ctx info h
      (by intro p hp; exact absurd hp (List.not_mem_nil p))
  refine ⟨?_, by decide, by decide, by decide, by decide, by decide,
    by decide, by decide, by decide⟩
  rw [show execNamespace ctx = dictUpdate baseGlobals ctx from rfl]
  rw [dictLookup_dictUpdate baseGlobals ctx "__builtins__".data
    (fun p hp => goodKey_ne_builtins p.1 (hkeys p hp))]
  decide

/-- C4 witness: the builtins lookup on the empty-context namespace. -/
theorem claim_C4_witness :
    dictLookup "__builtins__".data (execNamespace []) =
      some (.builtinsMap safeBuiltins) :=
  (claim_C4_sandbox_builtins envC4 [] emptyFileInfo rfl).1

theorem processFilesGo_append (tempDir : Str) :
    ∀ (pre : List UploadedFile) (post : List UploadedFile)
      (acc acc' : Dict × FileInfo),
      processFilesGo tempDir acc pre = .ok acc' →
      processFilesGo tempDir acc (pre ++ post) =
        processFilesGo tempDir acc' post := by
  intro pre
  induction pre with
  | nil =>
    intro post acc acc' h
    simp only [processFilesGo, Except.ok.injEq] at h
    rw [List.nil_append, h]
  | cons f rest ih =>
    intro post acc acc' h
    simp only [processFilesGo] at h ⊢
    cases hf : processOneFile tempDir acc f with
    | error e => rw [hf] at h; exact absurd h (by simp)
    | ok acc1 =>
      rw [hf] at h
      exact ih post acc1 acc' h

/-- A CSV upload whose parse fails makes `processOneFile` raise the
`HTTPException(400, "Error processing CSV: ...")`. -/
theorem processOneFile_csv_error (tempDir : Str) (acc : Dict × FileInfo)
    (f : UploadedFile) (e : Str)
    (hsave : f.save = .ok ())
    (hcsv : pyEndsWith ".csv".data f.filename = true)
    (hparse : f.csvParse = .error e) :
    processOneFile tempDir acc f =
      .error (.http 400 ("Error processing CSV: ".data ++ e)) := by
  simp [processOneFile, hsave, hcsv, process_csv_file, hparse]

/-- C1 counterexample: a malformed CSV does not reach the caller as a
4xx-equivalent status — the `HTTPException(400)` is swallowed by the
handler's `except Exception`, which returns an HTTP 200 envelope (the
no-persisted-record half of the claim does hold). -/
theorem claim_C1_counterexample :
    ¬ (hasMalformedCsv envC1 = true →
        (400 ≤ (analyze_data envC1).httpStatus ∧
          (analyze_data envC1).httpStatus < 500 ∧
          (analyze_data envC1).logs = [])) := by
  decide

/-- C1 (amended): a request whose upload loop hits a malformed CSV (all
earlier files processing cleanly) is aborted — whatever the model, exec and
insert oracles would do — and answered with the HTTP 200 "error" envelope
carrying the CSV parse message, and no analysis record is persisted. -/
theorem claim_C1_malformed_csv (env : Env) (q : Str)
    (pre post : List UploadedFile) (f : UploadedFile) (e : Str)
    (acc : Dict × FileInfo)
    (hq : env.questionsDecode = .ok q)
    (hfiles : env.files = pre ++ f :: post)
    (hpre : processFilesGo env.tempDir ([], emptyFileInfo) pre = .ok acc)
    (hcsv : pyEndsWith ".csv".data f.filename = true)
    (hsave : f.save = .ok ())
    (hparse : f.csvParse = .error e) :
    analyze_data env =
      errorOutcome env
        (excMessage (.http 400 ("Error processing CSV: ".data ++ e))) true := by
  have hfail : processFiles env.tempDir env.files =
      .error (.http 400 ("Error processing CSV: ".data ++ e)) := by
    unfold processFiles
    rw [hfiles,
      processFilesGo_append env.tempDir pre (f :: post) ([], emptyFileInfo)
        acc hpre]
    show (match processOneFile env.tempDir acc f with
          | Except.error err => Except.error err
          | Except.ok a => processFilesGo env.tempDir a post) =
        Except.error (PyExc.http 400 ("Error processing CSV: ".data ++ e))
    rw [processOneFile_csv_error env.tempDir acc f e hsave hcsv hparse]
  simp only [analyze_data, hq, hfail]

/-- C1 witness: the concrete malformed-CSV request of the counterexample,
run through the amended statement. -/
theorem claim_C1_witness :
    analyze_data envC1 =
      errorOutcome envC1
        (excMessage (.http 400 ("Error processing CSV: ".data ++
          "Error tokenizing data".data))) true :=
  claim_C1_malformed_csv envC1 "q".data [] [] badCsvFile
    "Error tokenizing data".data ([], emptyFileInfo) rfl rfl rfl (by decide)
    rfl rfl

/-- C2 counterexample: a request whose outcome is "error" persists no log
record at all — the insert sits only on the success path. -/
theorem claim_C2_counterexample :
    ¬ (((analyze_data envC2).body.status = "completed".data ∨
          (analyze_data envC2).body.status = "error".data) →
        (analyze_data envC2).logs.length = 1) := by
  decide

theorem error_ne_completed : ("error".data : Str) ≠ "completed".data := by
  decide

theorem completed_ne_error : ("completed".data : Str) ≠ "error".data := by
  decide

/-- C2 (amended): exactly one log record is persisted when the outcome is
"completed", and none — never one — when the outcome is "error". -/
theorem claim_C2_log_policy (env : Env) :
    ((analyze_data env).body.status = "completed".data →
      (analyze_data env).logs.length = 1) ∧
    ((analyze_data env).body.status = "error".data →
      (analyze_data env).logs = []) := by
  unfold analyze_data
  repeat' split
  all_goals constructor
  all_goals intro h
  all_goals first
    | rfl
    | exact absurd h error_ne_completed
    | exact absurd h completed_ne_error

/-- C2 witness: a completed request logging once, an errored one not at
all. -/
theorem claim_C2_witness :
    (analyze_data envC2ok).logs.length = 1 ∧
      (analyze_data envC2).logs = [] :=
  ⟨(claim_C2_log_policy envC2ok).1 (by decide),
   (claim_C2_log_policy envC2).2 (by decide)⟩

/-- C3: any exception raised while executing the generated code produces an
HTTP 200 envelope whose status is "error", whose result is null, whose error
field carries the wrapped exception message, and whose execution time is the
clock difference measured up to the failure. -/
theorem claim_C3_exec_error_envelope (env : Env) (q : Str) (ctx : Dict)
    (info : FileInfo) (code : Str) (e : Str)
    (hq : env.questionsDecode = .ok q)
    (hf : processFiles env.tempDir env.files = .ok (ctx, info))
    (hl : generate_analysis_code env.llm = .ok code)
    (he : env.execLocals = .error e) :
    (analyze_data env).httpStatus = 200 ∧
    (analyze_data env).body.status = "error".data ∧
    (analyze_data env).body.result = none ∧
    (analyze_data env).body.error =
      some (excMessage (.http 500 ("Code execution error: ".data ++ e))) ∧
    (analyze_data env).body.execution_time = env.t1 - env.t0 := by
  have hx : execute_analysis_code code ctx env.execLocals =
      .error (.http 500 ("Code execution error: ".data ++ e)) := by
    rw [he]; rfl
  simp only [analyze_data, hq, hf, hl, hx]
  exact ⟨rfl, rfl, rfl, rfl, rfl⟩

/-- C3 witness: a concrete failed execution. -/
theorem claim_C3_witness :
    (analyze_data envC3).httpStatus = 200 ∧
    (analyze_data envC3).body.status = "error".data ∧
    (analyze_data envC3).body.result = none ∧
    (analyze_data envC3).body.error =
      some (excMessage (.http 500 ("Code execution error: ".data ++
        "boom".data))) ∧
    (analyze_data envC3).body.execution_time = envC3.t1 - envC3.t0 := by
  have h := claim_C3_exec_error_envelope envC3 "q".data [] emptyFileInfo
    (extractCode "print(1)".data) "boom".data rfl rfl rfl rfl
  exact ⟨h.1, h.2.1, h.2.2.1, h.2.2.2.1, h.2.2.2.2⟩
end DataAnalyst
